import Mathlib

/-!
Shallow embedding of `trax/rl/task.py` (classes `_TimeStep`, `Trajectory`,
the module-level `play`, and `RLTask`), together with theorems settling the
frozen claims about that file.

Modelling conventions:
* Observations and actions are integers, rewards / returns / `gamma` are
  rationals (exact arithmetic standing in for Python floats).
* Python `None` becomes `Option.none`; a Python `raise` becomes
  `Except.error` with the source's message.
* The Python environment object is split into pure transition functions
  (`GymEnv`) and an explicit environment state of type `σ`, threaded through
  the operations.  `reset` returns the new environment state and the initial
  observation, `step` returns the new state and `(observation, reward, done)`
  (the gym protocol, `dm_suite=False`; the claims do not involve the DeepMind
  branch).
* The `_trajectories` defaultdict is an insertion-ordered association list
  from epoch id (`Int`) to the list of trajectories of that epoch.
-/

namespace Trax

/-- `_TimeStep`: one step of interaction.  Field order follows the Python
constructor; `discounted_return` is initialised to `0.0` there. -/
structure TimeStep where
  observation : Int
  action : Option Int
  reward : Option ℚ
  dist_inputs : Option Int
  done : Option Bool
  mask : Option ℚ
  discounted_return : ℚ
deriving Repr, DecidableEq

/-- `_TimeStep(observation)`: a fresh, still-open timestep (all the other
constructor arguments default to `None`, `discounted_return` to `0.0`). -/
def newTimeStep (observation : Int) : TimeStep :=
  ⟨observation, none, none, none, none, none, 0⟩

/-- A `Trajectory` is its private list `_timesteps`. -/
abbrev Trajectory := List TimeStep

/-- The namedtuple `TrajectoryNp`.  Each field is `none` when the
corresponding list of per-step values was empty (the source's `stack`
returns `None` then), otherwise the stacked list. -/
structure TrajectoryNp where
  observations : Option (List Int)
  actions : Option (List (Option Int))
  dist_inputs : Option (List (Option Int))
  rewards : Option (List (Option ℚ))
  returns : Option (List (Option ℚ))
  dones : Option (List (Option Bool))
  mask : Option (List (Option ℚ))
deriving Repr, DecidableEq

namespace Trajectory

/-- `Trajectory.done` getter: `False` if fewer than two timesteps, else the
`done` field of the second-to-last timestep (which in Python may be `None`;
the result is the raw Python value, hence `Option Bool` with the short case
returning the Python constant `False`). -/
def done (t : Trajectory) : Option Bool :=
  if h : t.length < 2 then some false
  else (t.get ⟨t.length - 2, by omega⟩).done

/-- Truthiness of `cur_trajectory.done` in an `if` (Python `None` is falsy). -/
def isDone (t : Trajectory) : Bool :=
  (done t).getD false

/-- Helper for the `done` setter: rewrite the `done` flag at one index. -/
def setDoneAt : Trajectory → Nat → Bool → Trajectory
  | [], _, _ => []
  | ts :: rest, 0, d => { ts with done := some d } :: rest
  | ts :: rest, n + 1, d => ts :: setDoneAt rest n d

/-- `Trajectory.done` setter: raises `ValueError` when fewer than two
timesteps exist, otherwise writes the second-to-last timestep's flag. -/
def doneSet (t : Trajectory) (d : Bool) : Except String Trajectory :=
  if t.length < 2 then Except.error "No interactions yet in the trajectory."
  else Except.ok (setDoneAt t (t.length - 2) d)

/-- `last_observation` property: observation of the final timestep
(`none` only on the empty list, which the class never produces). -/
def last_observation (t : Trajectory) : Option Int :=
  t.getLast?.map TimeStep.observation

/-- `total_return` property: `sum(t.reward or 0.0)`. -/
def total_return (t : Trajectory) : ℚ :=
  (t.map (fun ts => ts.reward.getD 0)).sum

/-- Helper closing the last (open) timestep, as the first half of `extend`. -/
def closeLast (t : Trajectory) (action : Int) (dist_inputs : Option Int)
    (reward : ℚ) (d : Bool) (mask : ℚ) : Trajectory :=
  match t with
  | [] => []
  | [ts] =>
    [{ ts with
        action := some action
        dist_inputs := dist_inputs
        reward := some reward
        done := some d
        mask := some mask }]
  | ts :: rest => ts :: closeLast rest action dist_inputs reward d mask

/-- `extend(action, dist_inputs, new_observation, reward, done, mask=1)`:
close the last timestep and append a fresh open one.  Call sites in the
source never pass `mask`, so it is `1` at every call below. -/
def extend (t : Trajectory) (action : Int) (dist_inputs : Option Int)
    (new_observation : Int) (reward : ℚ) (d : Bool) (mask : ℚ) : Trajectory :=
  closeLast t action dist_inputs reward d mask ++ [newTimeStep new_observation]

/-- Backward pass of `calculate_returns`: returns the rewritten list and the
running `ret` value after processing the whole suffix. -/
def calcRetAux (gamma : ℚ) : Trajectory → Trajectory × ℚ
  | [] => ([], 0)
  | ts :: rest =>
    let r := calcRetAux gamma rest
    let ret := gamma * r.2 + ts.reward.getD 0
    ({ ts with discounted_return := ret } :: r.1, ret)

/-- `calculate_returns(gamma)`: single backward pass,
`ret = gamma * ret + (reward or 0.0)` stored into `discounted_return`. -/
def calculate_returns (gamma : ℚ) (t : Trajectory) : Trajectory :=
  (calcRetAux gamma t).1

/-- The running `ret` value of `calculate_returns` at the start of a suffix. -/
def retFrom (gamma : ℚ) (t : Trajectory) : ℚ :=
  (calcRetAux gamma t).2

/-- Intermediate per-field lists built by the loop of `to_np`. -/
structure NpFields where
  observations : List Int
  actions : List (Option Int)
  dist_inputs : List (Option Int)
  rewards : List (Option ℚ)
  returns : List (Option ℚ)
  dones : List (Option Bool)
  masks : List (Option ℚ)
deriving Repr, DecidableEq

/-- The field-collecting loop of `to_np`: a timestep with `action is None`
contributes only its observation, a closed one contributes every field. -/
def collectFields : Trajectory → NpFields
  | [] => ⟨[], [], [], [], [], [], []⟩
  | ts :: rest =>
    let f := collectFields rest
    match ts.action with
    | none => { f with observations := ts.observation :: f.observations }
    | some a =>
      ⟨ts.observation :: f.observations,
       some a :: f.actions,
       ts.dist_inputs :: f.dist_inputs,
       ts.reward :: f.rewards,
       some ts.discounted_return :: f.returns,
       ts.done :: f.dones,
       ts.mask :: f.masks⟩

/-- `filler = None if x[-1] is None else np.zeros_like(x[-1])`; `x[-1]` on an
empty list is an `IndexError`. -/
def fillerOf {α : Type} [OfNat α 0] (x : List (Option α)) :
    Except String (Option α) :=
  match x.getLast? with
  | Option.none => Except.error "IndexError: list index out of range"
  | Option.some last =>
    match last with
    | Option.none => Except.ok none
    | Option.some _ => Except.ok (some 0)

/-- `stack`: `None` on an empty list, otherwise the stacked array. -/
def stack {α : Type} (x : List α) : Option (List α) :=
  if x.isEmpty then none else some x

/-- `to_np(margin)`: collect the per-field lists; when more than one
observation was collected, extend `mask` by `margin` zeros, `dones` by
`margin` `True`s, observations by `margin - 1` zeros, and the remaining four
fields by `margin` copies of their filler; then stack every field.  The
memoisation cache of the source is omitted (it only avoids recomputing the
same value).  The conversion is the default `_default_timestep_to_np`. -/
def to_np (t : Trajectory) (margin : Nat) : Except String TrajectoryNp :=
  let f := collectFields t
  if f.observations.length > 1 then
    match fillerOf f.actions with
    | Except.error e => Except.error e
    | Except.ok fa =>
      match fillerOf f.dist_inputs with
      | Except.error e => Except.error e
      | Except.ok fd =>
        match fillerOf f.rewards with
        | Except.error e => Except.error e
        | Except.ok fr =>
          match fillerOf f.returns with
          | Except.error e => Except.error e
          | Except.ok fret =>
            Except.ok
              { observations := stack (f.observations ++ List.replicate (margin - 1) 0)
                actions := stack (f.actions ++ List.replicate margin fa)
                dist_inputs := stack (f.dist_inputs ++ List.replicate margin fd)
                rewards := stack (f.rewards ++ List.replicate margin fr)
                returns := stack (f.returns ++ List.replicate margin fret)
                dones := stack (f.dones ++ List.replicate margin (some true))
                mask := stack (f.masks ++ List.replicate margin (some 0)) }
  else
    Except.ok
      { observations := stack f.observations
        actions := stack f.actions
        dist_inputs := stack f.dist_inputs
        rewards := stack f.rewards
        returns := stack f.returns
        dones := stack f.dones
        mask := stack f.masks }

end Trajectory

/-- Environment dynamics under the gym protocol, with explicit state `σ`:
`reset` yields the fresh state and initial observation; `step` yields the
new state and the `(observation, reward, done)` prefix of the step result. -/
structure GymEnv (σ : Type) where
  reset : σ → σ × Int
  step : σ → Int → σ × (Int × ℚ × Bool)

/-- A policy maps the current trajectory to `(action, dist_inputs)`. -/
abbrev Policy := Trajectory → Int × Option Int

/-- The `while` loop of the module-level `play`, with `fuel` the number of
steps still allowed (`max_steps - cur_step`).  The loop stops when the
environment reports `done` or the fuel is exhausted. -/
def playLoop {σ : Type} (env : GymEnv σ) (policy : Policy) :
    Nat → σ → Trajectory → σ × Trajectory
  | 0, s, tr => (s, tr)
  | fuel + 1, s, tr =>
    let ad := policy tr
    let st := env.step s ad.1
    let tr2 := Trajectory.extend tr ad.1 ad.2 st.2.1 st.2.2.1 st.2.2.2 1
    if st.2.2.2 then (st.1, tr2) else playLoop env policy fuel st.1 tr2

/-- Module-level `play(env, policy, dm_suite=False, max_steps,
last_observation)`: reset only when `last_observation is None`, then run the
step loop.  `max_steps` is a number at every call site modelled here. -/
def play {σ : Type} (env : GymEnv σ) (policy : Policy) (max_steps : Nat)
    (last_observation : Option Int) (s : σ) : σ × Trajectory :=
  match last_observation with
  | none =>
    let r := env.reset s
    playLoop env policy max_steps r.1 [newTimeStep r.2]
  | some obs => playLoop env policy max_steps s [newTimeStep obs]

/-- The mutable state of an `RLTask` object: the two environment states, the
configuration read in `play`/`collect_trajectories`, the epoch-indexed
replay buffer, and the bookkeeping counters.  The environment transition
functions are passed separately to each operation (both `_env` and
`_eval_env` are built from the same environment name, so they share
dynamics and differ only in state). -/
structure RLTask (σ : Type) where
  env : σ
  eval_env : σ
  max_steps : Nat
  time_limit : Nat
  gamma : ℚ
  last_observation : Option Int
  n_steps_left : Int
  trajectories : List (Int × List Trajectory)
  saved_epochs_unchanged : List Int
  n_replay_epochs : Nat
  n_trajectories : Nat
  n_interactions : Nat

namespace RLTask

/-- Lines 563-571 of the source, shared by both branches of `RLTask.play`:
update `_last_observation` (and, when training, reset `_n_steps_left` on a
finished trajectory), then compute discounted returns on the trajectory. -/
def playPost {σ : Type} (st : RLTask σ) (only_eval : Bool) (tr : Trajectory) :
    RLTask σ × Trajectory :=
  let st2 :=
    if Trajectory.isDone tr then
      { st with
          last_observation := none
          n_steps_left := if only_eval then st.n_steps_left else (st.time_limit : Int) }
    else { st with last_observation := Trajectory.last_observation tr }
  (st2, Trajectory.calculate_returns st.gamma tr)

/-- `RLTask.play(policy, max_steps=None, only_eval=False)`.  Eval mode plays
on `_eval_env`, capped at `min(max_steps, time_limit)`, always from a fresh
reset.  Training mode plays on `_env`, capped at
`min(max_steps, n_steps_left)`, resuming from `_last_observation`; it then
decrements `_n_steps_left` by `len(trajectory) - 1`, asserts the counter is
non-negative, and forces `done = True` when it reaches zero (the `done`
setter raises on trajectories shorter than 2). -/
def play {σ : Type} (E : GymEnv σ) (st : RLTask σ) (policy : Policy)
    (max_steps : Option Nat) (only_eval : Bool) :
    Except String (RLTask σ × Trajectory) :=
  let ms := max_steps.getD st.max_steps
  if only_eval then
    let r := Trax.play E policy (min ms st.time_limit) none st.eval_env
    Except.ok (playPost { st with eval_env := r.1 } only_eval r.2)
  else
    let fuel := (min (ms : Int) st.n_steps_left).toNat
    let r := Trax.play E policy fuel st.last_observation st.env
    let nLeft : Int := st.n_steps_left - ((r.2.length : Int) - 1)
    if nLeft < 0 then Except.error "assert self.n_steps_left >= 0"
    else if nLeft = 0 then
      match Trajectory.doneSet r.2 true with
      | Except.error e => Except.error e
      | Except.ok tr2 =>
        Except.ok (playPost { st with env := r.1, n_steps_left := nLeft } only_eval tr2)
    else
      Except.ok (playPost { st with env := r.1, n_steps_left := nLeft } only_eval r.2)

/-- The `n_trajectories` branch of `collect_trajectories`: play exactly `n`
episodes (or slices), threading the task state. -/
def collectNLoop {σ : Type} (E : GymEnv σ) (policy : Policy) (ms : Nat)
    (only_eval : Bool) : Nat → RLTask σ → Except String (List Trajectory × RLTask σ)
  | 0, st => Except.ok ([], st)
  | n + 1, st =>
    match play E st policy (some ms) only_eval with
    | Except.error e => Except.error e
    | Except.ok (st1, tr) =>
      match collectNLoop E policy ms only_eval n st1 with
      | Except.error e => Except.error e
      | Except.ok (rest, st2) => Except.ok (tr :: rest, st2)

/-- The `n_interactions` branch: `while n_interactions > 0`, play with
`max_steps=min(n_interactions, max_steps)` and WITHOUT `only_eval` (line 591
of the source does not forward the flag), then subtract
`len(trajectory) - 1`.  `fuel` bounds the number of iterations; every
iteration of the source that makes no progress either raises (the forced
`done` on a length-1 trajectory) or loops forever, and the fuel-exhausted
error stands in for the latter. -/
def collectInteractLoop {σ : Type} (E : GymEnv σ) (policy : Policy) (ms : Nat) :
    Nat → Int → RLTask σ → Except String (List Trajectory × RLTask σ)
  | 0, nInt, st =>
    if nInt ≤ 0 then Except.ok ([], st)
    else Except.error "loop fuel exhausted: the source loop does not terminate"
  | fuel + 1, nInt, st =>
    if nInt ≤ 0 then Except.ok ([], st)
    else
      match play E st policy (some (min nInt.toNat ms)) false with
      | Except.error e => Except.error e
      | Except.ok (st1, tr) =>
        match collectInteractLoop E policy ms fuel (nInt - ((tr.length : Int) - 1)) st1 with
        | Except.error e => Except.error e
        | Except.ok (rest, st2) => Except.ok (tr :: rest, st2)

/-- Mean total return over the new trajectories (`0` when none). -/
def meanReturn (trajs : List Trajectory) : ℚ :=
  let returns := trajs.map Trajectory.total_return
  if returns.isEmpty then 0 else returns.sum / (returns.length : ℚ)

/-- `self._trajectories[epoch_id].extend(new_trajectories)` on the
insertion-ordered defaultdict: append to the epoch's list when the key
exists, otherwise add the key at the end. -/
def extendEpoch (m : List (Int × List Trajectory)) (k : Int)
    (ts : List Trajectory) : List (Int × List Trajectory) :=
  if m.any (fun kv => kv.1 == k) then
    m.map (fun kv => if kv.1 == k then (kv.1, kv.2 ++ ts) else kv)
  else m ++ [(k, ts)]

/-- Lines 609-627 of the source (the non-eval tail of
`collect_trajectories`): store the new trajectories under `epoch_id`, drop
`epoch_id` from `_saved_epochs_unchanged`, prune epochs below
`epoch_id - n_replay_epochs`, and bump the counters (note: the interaction
counter adds the FULL length of each trajectory, initial reset included). -/
def storeTrajectories {σ : Type} (st : RLTask σ) (epoch_id : Int)
    (new_trajectories : List Trajectory) : RLTask σ :=
  let st2 :=
    if new_trajectories.isEmpty then st
    else { st with trajectories := extendEpoch st.trajectories epoch_id new_trajectories }
  let st3 :=
    if st2.saved_epochs_unchanged.contains epoch_id then
      { st2 with saved_epochs_unchanged := st2.saved_epochs_unchanged.filter (fun e => e != epoch_id) }
    else st2
  let keep := fun (kv : Int × List Trajectory) => decide (epoch_id - (st3.n_replay_epochs : Int) ≤ kv.1)
  let st4 := { st3 with trajectories := st3.trajectories.filter keep }
  { st4 with
      n_trajectories := st4.n_trajectories + new_trajectories.length
      n_interactions := st4.n_interactions + (new_trajectories.map List.length).sum }

/-- `max_steps = max_steps or self.max_steps` (Python `or`: an explicit `0`
argument also falls back to the attribute). -/
def resolveMaxSteps {σ : Type} (max_steps : Option Nat) (st : RLTask σ) : Nat :=
  match max_steps with
  | some m => if m = 0 then st.max_steps else m
  | none => st.max_steps

/-- `collect_trajectories(policy, n_trajectories, n_interactions, only_eval,
max_steps, epoch_id)`.  `n_trajectories` takes precedence; with neither
given the call raises.  Returns the mean return and, unless `only_eval`,
the updated buffer and counters. -/
def collect_trajectories {σ : Type} (E : GymEnv σ) (st : RLTask σ)
    (policy : Policy) (n_trajectories : Option Nat) (n_interactions : Option Int)
    (only_eval : Bool) (max_steps : Option Nat) (epoch_id : Int) :
    Except String (ℚ × RLTask σ) :=
  let ms := resolveMaxSteps max_steps st
  let res := match n_trajectories with
    | some n => collectNLoop E policy ms only_eval n st
    | none =>
      match n_interactions with
      | some k => collectInteractLoop E policy ms k.toNat k st
      | none => Except.error "Either n_trajectories or n_interactions must be defined."
  match res with
  | Except.error e => Except.error e
  | Except.ok (new_trajectories, st1) =>
    if only_eval then Except.ok (meanReturn new_trajectories, st1)
    else Except.ok (meanReturn new_trajectories, storeTrajectories st1 epoch_id new_trajectories)

/-- `remove_epoch(epoch)`: pop the epoch's list if present (note that
`_saved_epochs_unchanged` is not touched). -/
def remove_epoch {σ : Type} (st : RLTask σ) (epoch : Int) : RLTask σ :=
  if st.trajectories.any (fun kv => kv.1 == epoch) then
    { st with trajectories := st.trajectories.filter (fun kv => kv.1 != epoch) }
  else st

end RLTask

/-- `int(np.ceil(np.log2(n)))` for `n >= 1`: the least `k` with `n <= 2 ^ k`,
computed by a bounded search (the exponent never exceeds `n`). -/
def ceilLog2 (n : Nat) : Nat :=
  ((List.range (n + 1)).find? (fun k => decide (n ≤ 2 ^ k))).getD 0

/-- `_zero_pad(x, (0, pad), axis=0)` on a 1-D tensor: append `pad` zeros. -/
def zeroPad (x : List ℚ) (padAmount : Nat) : List ℚ :=
  x ++ List.replicate padAmount 0

/-- The `pad` routine inside `trajectory_batch_stream`, on 1-D per-slice
tensors: replace `None` entries by zeros shaped like the first non-`None`
entry (asserting one exists), raise `max_len` to `min_slice_length` when
given, stack as-is when all lengths agree, otherwise zero-pad every entry to
the next power of two that is at least `max_len`
(`2**int(np.ceil(np.log2(max_len)))`, i.e. `2 ^ ceilLog2 max_len`). -/
def pad (min_slice_length : Option Nat) (tensor_list : List (Option (List ℚ))) :
    Except String (List (List ℚ)) :=
  match (tensor_list.filterMap id).head? with
  | Option.none => Except.error "All tensors to pad are None."
  | Option.some firstNotNone =>
    let prototype : List ℚ := List.replicate firstNotNone.length 0
    let tensors := tensor_list.map (fun t => t.getD prototype)
    let lengths := tensors.map List.length
    let maxLen0 := lengths.foldr max 0
    let maxLen := match min_slice_length with
      | some msl => max maxLen0 msl
      | none => maxLen0
    let minLen := lengths.foldr min maxLen0
    if maxLen = minLen then Except.ok tensors
    else
      let padLen := 2 ^ ceilLog2 maxLen
      Except.ok (tensors.map (fun t => zeroPad t (padLen - t.length)))

/-!
Concrete instances used by witnesses and counterexamples.  The environment
state is a step counter since the last reset.
-/

/-- An environment whose every episode ends with `done=True` after exactly
five steps, with reward `1` at each step. -/
def E5 : GymEnv Nat :=
  ⟨fun _ => (0, 0), fun s _ => (s + 1, ((s + 1 : Int), 1, s + 1 == 5))⟩

/-- An environment whose every episode ends with `done=True` after one step. -/
def E1 : GymEnv Nat :=
  ⟨fun _ => (0, 7), fun s _ => (s + 1, (3, 1, true))⟩

/-- A constant policy. -/
def p0 : Policy := fun _ => (0, none)

/-- A freshly constructed task state: empty buffer, zero counters,
`n_steps_left = time_limit`. -/
def st0 : RLTask Nat :=
  { env := 0, eval_env := 0, max_steps := 5, time_limit := 100, gamma := 1,
    last_observation := none, n_steps_left := 100, trajectories := [],
    saved_epochs_unchanged := [], n_replay_epochs := 1,
    n_trajectories := 0, n_interactions := 0 }

/-- A task state in the middle of a training episode: the cross-call
resumption observation is set. -/
def stC : RLTask Nat :=
  { st0 with last_observation := some 9, max_steps := 4, time_limit := 4, n_steps_left := 4 }

/-- A small task state for the only-eval interaction-mode witness. -/
def stW : RLTask Nat :=
  { st0 with max_steps := 4, time_limit := 4, n_steps_left := 4 }

/-- A buffer holding epochs 0 and 1 with one trajectory each,
`n_replay_epochs = 1`. -/
def stD : RLTask Nat :=
  { stW with trajectories := [(0, [[newTimeStep 0]]), (1, [[newTimeStep 1]])] }

/-- A state whose saved-unchanged set is exactly its one buffer epoch. -/
def stE : RLTask Nat :=
  { stW with trajectories := [(0, [[newTimeStep 0]])], saved_epochs_unchanged := [0] }

/-- A state with two epochs marked unchanged since the last save. -/
def stS : RLTask Nat :=
  { stW with saved_epochs_unchanged := [1, 2] }

/-- A closed timestep, as `extend` leaves it. -/
def closedTS : TimeStep :=
  { newTimeStep 0 with action := some 0, reward := some 1, done := some false, mask := some 1 }

/-- A two-step trajectory: one closed step followed by the open final step. -/
def t2 : Trajectory := [closedTS, newTimeStep 1]

/-- A three-step trajectory: closed steps with rewards 2 and 3, then the
open final step. -/
def tRet : Trajectory :=
  [{ newTimeStep 0 with action := some 0, reward := some 2, done := some false, mask := some 1 },
   { newTimeStep 1 with action := some 1, reward := some 3, done := some true, mask := some 1 },
   newTimeStep 2]

/-! Helper lemmas about `calculate_returns`. -/

lemma calcRetAux_fst_length (γ : ℚ) :
    ∀ t : Trajectory, ((Trajectory.calcRetAux γ t).1).length = t.length
  | [] => rfl
  | ts :: rest => by
    simp [Trajectory.calcRetAux, calcRetAux_fst_length γ rest]

lemma calculate_returns_length (γ : ℚ) (t : Trajectory) :
    (Trajectory.calculate_returns γ t).length = t.length :=
  calcRetAux_fst_length γ t

lemma retFrom_cons (γ : ℚ) (ts : TimeStep) (rest : Trajectory) :
    Trajectory.retFrom γ (ts :: rest) =
      γ * Trajectory.retFrom γ rest + ts.reward.getD 0 := by
  simp [Trajectory.retFrom, Trajectory.calcRetAux]

lemma calculate_returns_get? (γ : ℚ) :
    ∀ (t : Trajectory) (i : Nat),
      (Trajectory.calculate_returns γ t).get? i =
        (t.get? i).map
          (fun x => { x with discounted_return := Trajectory.retFrom γ (t.drop i) })
  | [], i => by simp [Trajectory.calculate_returns, Trajectory.calcRetAux]
  | ts :: rest, 0 => by
    simp [Trajectory.calculate_returns, Trajectory.calcRetAux, Trajectory.retFrom]
  | ts :: rest, i + 1 => by
    have ih := calculate_returns_get? γ rest i
    simp [Trajectory.calculate_returns, Trajectory.calcRetAux] at ih ⊢
    exact ih

lemma calculate_returns_done (γ : ℚ) (t : Trajectory) :
    Trajectory.done (Trajectory.calculate_returns γ t) = Trajectory.done t := by
  by_cases h : t.length < 2
  · rw [Trajectory.done, Trajectory.done, dif_pos h,
      dif_pos (by rwa [calculate_returns_length])]
  · rw [Trajectory.done, Trajectory.done, dif_neg h,
      dif_neg (by rwa [calculate_returns_length])]
    have hlt : t.length - 2 < t.length := by omega
    have h1 := calculate_returns_get? γ t (t.length - 2)
    rw [List.get?_eq_get (by rwa [calculate_returns_length]),
        List.get?_eq_get hlt] at h1
    have h2 : ((Trajectory.calculate_returns γ t).get
        ⟨(Trajectory.calculate_returns γ t).length - 2, by
          rw [calculate_returns_length]; omega⟩) =
        { t.get ⟨t.length - 2, hlt⟩ with
            discounted_return := Trajectory.retFrom γ (t.drop (t.length - 2)) } := by
      have := Option.some.inj h1
      simpa [calculate_returns_length] using this
    rw [h2]

lemma calculate_returns_isDone (γ : ℚ) (t : Trajectory) :
    Trajectory.isDone (Trajectory.calculate_returns γ t) = Trajectory.isDone t := by
  rw [Trajectory.isDone, Trajectory.isDone, calculate_returns_done]

lemma calcRetAux_last_observation (γ : ℚ) :
    ∀ t : Trajectory,
      Trajectory.last_observation ((Trajectory.calcRetAux γ t).1) =
        Trajectory.last_observation t
  | [] => rfl
  | [ts] => by simp [Trajectory.calcRetAux, Trajectory.last_observation]
  | ts :: ts2 :: rest => by
    have ih := calcRetAux_last_observation γ (ts2 :: rest)
    simp only [Trajectory.calcRetAux, Trajectory.last_observation] at ih ⊢
    rw [List.getLast?_cons_cons]
    exact ih

lemma calculate_returns_last_observation (γ : ℚ) (t : Trajectory) :
    Trajectory.last_observation (Trajectory.calculate_returns γ t) =
      Trajectory.last_observation t :=
  calcRetAux_last_observation γ t

/-! Helper lemmas about the `done` accessors and `extend`. -/

lemma setDoneAt_get?_same (d : Bool) :
    ∀ (t : Trajectory) (n : Nat), n < t.length →
      (Trajectory.setDoneAt t n d).get? n =
        (t.get? n).map (fun x => { x with done := some d })
  | [], n, h => by simp at h
  | ts :: rest, 0, _ => by simp [Trajectory.setDoneAt]
  | ts :: rest, n + 1, h => by
    have ih := setDoneAt_get?_same d rest n (by simpa using Nat.lt_of_succ_lt_succ h)
    simpa [Trajectory.setDoneAt] using ih

lemma setDoneAt_get?_other (d : Bool) :
    ∀ (t : Trajectory) (n i : Nat), i ≠ n →
      (Trajectory.setDoneAt t n d).get? i = t.get? i
  | [], _, _, _ => by simp [Trajectory.setDoneAt]
  | ts :: rest, 0, 0, h => absurd rfl h
  | ts :: rest, 0, i + 1, _ => by simp [Trajectory.setDoneAt]
  | ts :: rest, n + 1, 0, _ => by simp [Trajectory.setDoneAt]
  | ts :: rest, n + 1, i + 1, h => by
    have ih := setDoneAt_get?_other d rest n i (fun he => h (by omega))
    simpa [Trajectory.setDoneAt] using ih

lemma closeLast_eq (a : Int) (di : Option Int) (r : ℚ) (dn : Bool) (mk : ℚ) :
    ∀ (t : Trajectory) (h : t ≠ []),
      Trajectory.closeLast t a di r dn mk =
        t.dropLast ++
          [{ t.getLast h with
              action := some a, dist_inputs := di, reward := some r,
              done := some dn, mask := some mk }]
  | [], h => absurd rfl h
  | [ts], _ => by simp [Trajectory.closeLast]
  | ts :: ts2 :: rest, _ => by
    have ih := closeLast_eq a di r dn mk (ts2 :: rest) (by simp)
    simp only [Trajectory.closeLast]
    rw [ih]
    simp [List.getLast_cons]

lemma extend_eq (t : Trajectory) (h : t ≠ []) (a : Int) (di : Option Int)
    (o : Int) (r : ℚ) (dn : Bool) (mk : ℚ) :
    Trajectory.extend t a di o r dn mk =
      t.dropLast ++
        [{ t.getLast h with
            action := some a, dist_inputs := di, reward := some r,
            done := some dn, mask := some mk },
         newTimeStep o] := by
  rw [Trajectory.extend, closeLast_eq a di r dn mk t h]
  simp

lemma done_append_pair (l : Trajectory) (x y : TimeStep) :
    Trajectory.done (l ++ [x, y]) = x.done := by
  have hlen : (l ++ [x, y]).length = l.length + 2 := by simp
  rw [Trajectory.done, dif_neg (by rw [hlen]; omega)]
  have h1 : (l ++ [x, y]).get? ((l ++ [x, y]).length - 2) = some x := by
    rw [hlen, Nat.add_sub_cancel, List.get?_append_right (Nat.le_refl _)]
    simp
  have h3 := @List.get?_eq_get TimeStep (l ++ [x, y])
      ((l ++ [x, y]).length - 2) (by rw [hlen]; omega)
  rw [h1] at h3
  exact (congrArg TimeStep.done (Option.some.inj h3)).symm

lemma extend_length (t : Trajectory) (a : Int) (di : Option Int) (o : Int)
    (r : ℚ) (dn : Bool) (mk : ℚ) :
    (Trajectory.extend t a di o r dn mk).length = t.length + 1 := by
  have : ∀ u : Trajectory, (Trajectory.closeLast u a di r dn mk).length = u.length := by
    intro u
    induction u with
    | nil => rfl
    | cons ts rest ih =>
      cases rest with
      | nil => rfl
      | cons ts2 rest2 => simpa [Trajectory.closeLast] using ih
  simp [Trajectory.extend, this]

lemma extend_done (t : Trajectory) (h : t ≠ []) (a : Int) (di : Option Int)
    (o : Int) (r : ℚ) (dn : Bool) (mk : ℚ) :
    Trajectory.done (Trajectory.extend t a di o r dn mk) = some dn := by
  rw [extend_eq t h a di o r dn mk, done_append_pair]

lemma extend_isDone (t : Trajectory) (h : t ≠ []) (a : Int) (di : Option Int)
    (o : Int) (r : ℚ) (dn : Bool) (mk : ℚ) :
    Trajectory.isDone (Trajectory.extend t a di o r dn mk) = dn := by
  rw [Trajectory.isDone, extend_done t h a di o r dn mk]
  rfl

lemma extend_last_observation (t : Trajectory) (a : Int) (di : Option Int)
    (o : Int) (r : ℚ) (dn : Bool) (mk : ℚ) :
    Trajectory.last_observation (Trajectory.extend t a di o r dn mk) =
      some o := by
  simp [Trajectory.extend, Trajectory.last_observation, newTimeStep]

lemma extend_ne_nil (t : Trajectory) (a : Int) (di : Option Int) (o : Int)
    (r : ℚ) (dn : Bool) (mk : ℚ) :
    Trajectory.extend t a di o r dn mk ≠ [] := by
  simp [Trajectory.extend]

/-! Frame lemmas: which `RLTask` fields each operation can touch. -/

lemma playPost_frame {σ : Type} (st : RLTask σ) (oe : Bool) (tr : Trajectory) :
    ((RLTask.playPost st oe tr).1).max_steps = st.max_steps ∧
    ((RLTask.playPost st oe tr).1).time_limit = st.time_limit ∧
    ((RLTask.playPost st oe tr).1).gamma = st.gamma ∧
    ((RLTask.playPost st oe tr).1).trajectories = st.trajectories ∧
    ((RLTask.playPost st oe tr).1).saved_epochs_unchanged = st.saved_epochs_unchanged ∧
    ((RLTask.playPost st oe tr).1).n_replay_epochs = st.n_replay_epochs ∧
    ((RLTask.playPost st oe tr).1).n_trajectories = st.n_trajectories ∧
    ((RLTask.playPost st oe tr).1).n_interactions = st.n_interactions ∧
    ((RLTask.playPost st oe tr).1).env = st.env ∧
    ((RLTask.playPost st oe tr).1).eval_env = st.eval_env := by
  rw [RLTask.playPost]
  split <;> exact ⟨rfl, rfl, rfl, rfl, rfl, rfl, rfl, rfl, rfl, rfl⟩

lemma playPost_last_observation {σ : Type} (st : RLTask σ) (oe : Bool)
    (tr : Trajectory) :
    ((RLTask.playPost st oe tr).1).last_observation =
      if Trajectory.isDone tr then none else Trajectory.last_observation tr := by
  rw [RLTask.playPost]
  split <;> simp_all

lemma playPost_eval_n_steps_left {σ : Type} (st : RLTask σ) (tr : Trajectory) :
    ((RLTask.playPost st true tr).1).n_steps_left = st.n_steps_left := by
  rw [RLTask.playPost]
  split <;> rfl

lemma playPost_snd {σ : Type} (st : RLTask σ) (oe : Bool) (tr : Trajectory) :
    (RLTask.playPost st oe tr).2 = Trajectory.calculate_returns st.gamma tr := by
  rw [RLTask.playPost]

lemma play_ok_frame {σ : Type} (E : GymEnv σ) (st : RLTask σ) (p : Policy)
    (ms : Option Nat) (oe : Bool) (st' : RLTask σ) (tr : Trajectory)
    (h : RLTask.play E st p ms oe = Except.ok (st', tr)) :
    st'.max_steps = st.max_steps ∧
    st'.time_limit = st.time_limit ∧
    st'.gamma = st.gamma ∧
    st'.trajectories = st.trajectories ∧
    st'.saved_epochs_unchanged = st.saved_epochs_unchanged ∧
    st'.n_replay_epochs = st.n_replay_epochs ∧
    st'.n_trajectories = st.n_trajectories ∧
    st'.n_interactions = st.n_interactions := by
  simp only [RLTask.play] at h
  split at h
  · injection h with h2
    have hst' := congrArg Prod.fst h2
    subst hst'
    unfold RLTask.playPost
    split <;> exact ⟨rfl, rfl, rfl, rfl, rfl, rfl, rfl, rfl⟩
  · split at h
    · exact absurd h (by simp)
    · split at h
      · split at h
        · exact absurd h (by simp)
        · injection h with h2
          have hst' := congrArg Prod.fst h2
          subst hst'
          unfold RLTask.playPost
          split <;> exact ⟨rfl, rfl, rfl, rfl, rfl, rfl, rfl, rfl⟩
      · injection h with h2
        have hst' := congrArg Prod.fst h2
        subst hst'
        unfold RLTask.playPost
        split <;> exact ⟨rfl, rfl, rfl, rfl, rfl, rfl, rfl, rfl⟩

lemma play_eval_ok {σ : Type} (E : GymEnv σ) (st : RLTask σ) (p : Policy)
    (ms : Option Nat) :
    RLTask.play E st p ms true =
      Except.ok (RLTask.playPost
        { st with eval_env :=
            (Trax.play E p (min (ms.getD st.max_steps) st.time_limit) none st.eval_env).1 }
        true
        (Trax.play E p (min (ms.getD st.max_steps) st.time_limit) none st.eval_env).2) :=
  rfl

lemma collectNLoop_frame {σ : Type} (E : GymEnv σ) (p : Policy) (ms : Nat)
    (oe : Bool) :
    ∀ (n : Nat) (st : RLTask σ) (trajs : List Trajectory) (st1 : RLTask σ),
      RLTask.collectNLoop E p ms oe n st = Except.ok (trajs, st1) →
      st1.max_steps = st.max_steps ∧
      st1.time_limit = st.time_limit ∧
      st1.gamma = st.gamma ∧
      st1.trajectories = st.trajectories ∧
      st1.saved_epochs_unchanged = st.saved_epochs_unchanged ∧
      st1.n_replay_epochs = st.n_replay_epochs ∧
      st1.n_trajectories = st.n_trajectories ∧
      st1.n_interactions = st.n_interactions
  | 0, st, trajs, st1, h => by
    simp only [RLTask.collectNLoop] at h
    injection h with h2
    have hst := congrArg Prod.snd h2
    simp only at hst
    subst hst
    exact ⟨rfl, rfl, rfl, rfl, rfl, rfl, rfl, rfl⟩
  | n + 1, st, trajs, st1, h => by
    rw [RLTask.collectNLoop] at h
    cases hp : RLTask.play E st p (some ms) oe with
    | error e => rw [hp] at h; exact absurd h (by simp)
    | ok pr =>
      obtain ⟨stA, tr⟩ := pr
      rw [hp] at h
      simp only at h
      cases hrec : RLTask.collectNLoop E p ms oe n stA with
      | error e => rw [hrec] at h; exact absurd h (by simp)
      | ok pr2 =>
        obtain ⟨rest, st2⟩ := pr2
        rw [hrec] at h
        simp only at h
        injection h with h2
        have hst := congrArg Prod.snd h2
        simp only at hst
        subst hst
        have f1 := play_ok_frame E st p (some ms) oe stA tr hp
        have f2 := collectNLoop_frame E p ms oe n stA rest st2 hrec
        exact ⟨f2.1.trans f1.1, f2.2.1.trans f1.2.1, f2.2.2.1.trans f1.2.2.1,
          f2.2.2.2.1.trans f1.2.2.2.1, f2.2.2.2.2.1.trans f1.2.2.2.2.1,
          f2.2.2.2.2.2.1.trans f1.2.2.2.2.2.1,
          f2.2.2.2.2.2.2.1.trans f1.2.2.2.2.2.2.1,
          f2.2.2.2.2.2.2.2.trans f1.2.2.2.2.2.2.2⟩

lemma collectInteractLoop_frame {σ : Type} (E : GymEnv σ) (p : Policy) (ms : Nat) :
    ∀ (fuel : Nat) (nInt : Int) (st : RLTask σ) (trajs : List Trajectory)
      (st1 : RLTask σ),
      RLTask.collectInteractLoop E p ms fuel nInt st = Except.ok (trajs, st1) →
      st1.max_steps = st.max_steps ∧
      st1.time_limit = st.time_limit ∧
      st1.gamma = st.gamma ∧
      st1.trajectories = st.trajectories ∧
      st1.saved_epochs_unchanged = st.saved_epochs_unchanged ∧
      st1.n_replay_epochs = st.n_replay_epochs ∧
      st1.n_trajectories = st.n_trajectories ∧
      st1.n_interactions = st.n_interactions
  | 0, nInt, st, trajs, st1, h => by
    simp only [RLTask.collectInteractLoop] at h
    split at h
    · injection h with h2
      have hst := congrArg Prod.snd h2
      simp only at hst
      subst hst
      exact ⟨rfl, rfl, rfl, rfl, rfl, rfl, rfl, rfl⟩
    · exact absurd h (by simp)
  | fuel + 1, nInt, st, trajs, st1, h => by
    simp only [RLTask.collectInteractLoop] at h
    split at h
    · injection h with h2
      have hst := congrArg Prod.snd h2
      simp only at hst
      subst hst
      exact ⟨rfl, rfl, rfl, rfl, rfl, rfl, rfl, rfl⟩
    · cases hp : RLTask.play E st p (some (min nInt.toNat ms)) false with
      | error e => rw [hp] at h; exact absurd h (by simp)
      | ok pr =>
        obtain ⟨stA, tr⟩ := pr
        rw [hp] at h
        simp only at h
        cases hrec : RLTask.collectInteractLoop E p ms fuel
            (nInt - ((tr.length : Int) - 1)) stA with
        | error e => rw [hrec] at h; exact absurd h (by simp)
        | ok pr2 =>
          obtain ⟨rest, st2⟩ := pr2
          rw [hrec] at h
          simp only at h
          injection h with h2
          have hst := congrArg Prod.snd h2
          simp only at hst
          subst hst
          have f1 := play_ok_frame E st p (some (min nInt.toNat ms)) false stA tr hp
          have f2 := collectInteractLoop_frame E p ms fuel
            (nInt - ((tr.length : Int) - 1)) stA rest st2 hrec
          exact ⟨f2.1.trans f1.1, f2.2.1.trans f1.2.1, f2.2.2.1.trans f1.2.2.1,
            f2.2.2.2.1.trans f1.2.2.2.1, f2.2.2.2.2.1.trans f1.2.2.2.2.1,
            f2.2.2.2.2.2.1.trans f1.2.2.2.2.2.1,
            f2.2.2.2.2.2.2.1.trans f1.2.2.2.2.2.2.1,
            f2.2.2.2.2.2.2.2.trans f1.2.2.2.2.2.2.2⟩

lemma collect_false_ok {σ : Type} (E : GymEnv σ) (st : RLTask σ) (p : Policy)
    (nT : Option Nat) (nI : Option Int) (ms : Option Nat) (eid : Int)
    (m : ℚ) (st' : RLTask σ)
    (h : RLTask.collect_trajectories E st p nT nI false ms eid =
      Except.ok (m, st')) :
    ∃ (trajs : List Trajectory) (st1 : RLTask σ),
      st' = RLTask.storeTrajectories st1 eid trajs ∧
      st1.trajectories = st.trajectories ∧
      st1.saved_epochs_unchanged = st.saved_epochs_unchanged ∧
      st1.n_replay_epochs = st.n_replay_epochs := by
  rcases nT with _ | n
  · rcases nI with _ | k
    · exact absurd h (by simp [RLTask.collect_trajectories])
    · simp only [RLTask.collect_trajectories] at h
      cases hl : RLTask.collectInteractLoop E p (RLTask.resolveMaxSteps ms st)
          k.toNat k st with
      | error e => rw [hl] at h; exact absurd h (by simp)
      | ok pr =>
        obtain ⟨trajs, st1⟩ := pr
        rw [hl] at h
        simp only [Bool.false_eq_true, if_false] at h
        injection h with h2
        have hst := congrArg Prod.snd h2
        simp only at hst
        have hf := collectInteractLoop_frame E p (RLTask.resolveMaxSteps ms st)
          k.toNat k st trajs st1 hl
        exact ⟨trajs, st1, hst.symm, hf.2.2.2.1, hf.2.2.2.2.1, hf.2.2.2.2.2.1⟩
  · simp only [RLTask.collect_trajectories] at h
    cases hn : RLTask.collectNLoop E p (RLTask.resolveMaxSteps ms st) false n st with
    | error e => rw [hn] at h; exact absurd h (by simp)
    | ok pr =>
      obtain ⟨trajs, st1⟩ := pr
      rw [hn] at h
      simp only [Bool.false_eq_true, if_false] at h
      injection h with h2
      have hst := congrArg Prod.snd h2
      simp only at hst
      have hf := collectNLoop_frame E p (RLTask.resolveMaxSteps ms st) false
        n st trajs st1 hn
      exact ⟨trajs, st1, hst.symm, hf.2.2.2.1, hf.2.2.2.2.1, hf.2.2.2.2.2.1⟩

lemma filter_ne_of_contains_eq_false (l : List Int) (e : Int)
    (h : l.contains e = false) : l.filter (fun x => x != e) = l := by
  induction l with
  | nil => rfl
  | cons a as ih =>
    simp only [List.contains_cons, Bool.or_eq_false_iff] at h
    have h1 : ¬(e = a) := by simpa using h.1
    rw [List.filter_cons, if_pos (by simp [bne_iff_ne]; exact fun hh => h1 hh.symm),
      ih h.2]

lemma storeTrajectories_saved {σ : Type} (st : RLTask σ) (eid : Int)
    (ts : List Trajectory) :
    (RLTask.storeTrajectories st eid ts).saved_epochs_unchanged =
      st.saved_epochs_unchanged.filter (fun e => e != eid) := by
  simp only [RLTask.storeTrajectories]
  split <;> split <;>
    first
      | rfl
      | · rename_i hc
          exact (filter_ne_of_contains_eq_false _ _ (by simpa using hc)).symm

lemma storeTrajectories_prune {σ : Type} (st : RLTask σ) (eid : Int)
    (ts : List Trajectory) :
    ∀ kv ∈ (RLTask.storeTrajectories st eid ts).trajectories,
      eid - (st.n_replay_epochs : Int) ≤ kv.1 := by
  intro kv hkv
  simp only [RLTask.storeTrajectories] at hkv
  split at hkv <;> split at hkv <;>
    · simp only [List.mem_filter, decide_eq_true_eq] at hkv
      exact hkv.2

lemma remove_epoch_saved {σ : Type} (st : RLTask σ) (e : Int) :
    (RLTask.remove_epoch st e).saved_epochs_unchanged =
      st.saved_epochs_unchanged := by
  rw [RLTask.remove_epoch]
  split <;> rfl

/-- C3: `collect_trajectories` raises the descriptive `ValueError` when
NEITHER `n_trajectories` nor `n_interactions` is given (the raise happens
before any mutation, so no successor state is produced); but when BOTH are
given it does NOT fail: `n_trajectories` simply takes precedence, the call
behaving exactly as if `n_interactions` had been omitted. -/
theorem collect_arg_validation {σ : Type} (E : GymEnv σ) (st : RLTask σ)
    (p : Policy) (only_eval : Bool) (ms : Option Nat) (eid : Int) :
    RLTask.collect_trajectories E st p none none only_eval ms eid =
      Except.error "Either n_trajectories or n_interactions must be defined." ∧
    ∀ (n : Nat) (k : Int),
      RLTask.collect_trajectories E st p (some n) (some k) only_eval ms eid =
        RLTask.collect_trajectories E st p (some n) none only_eval ms eid :=
  ⟨rfl, fun _ _ => rfl⟩

/-- C3 counterexample: a call with BOTH `n_trajectories` and
`n_interactions` supplied succeeds (returns `ok`), refuting the claim that
`collect_trajectories` fails whenever not exactly one of them is given. -/
theorem collect_both_args_ok_cex :
    ∃ v, RLTask.collect_trajectories E1 st0 p0 (some 0) (some 5) false
      (some 3) 1 = Except.ok v :=
  ⟨_, rfl⟩

/-- C4: after any successful non-eval `collect_trajectories` into
`epoch_id`, every epoch still present in the buffer has id at least
`epoch_id - n_replay_epochs`; epochs below that bound are removed from the
mapping entirely.  (The retained-count bound of the claim is amended: the
window keeps ids `epoch_id - n_replay_epochs .. epoch_id` and beyond, up to
`n_replay_epochs + 1` epochs in the usual monotone-epoch usage — see the
counterexample.) -/
theorem collect_prune_lower_bound {σ : Type} (E : GymEnv σ)
    (st st' : RLTask σ) (p : Policy) (nT : Option Nat) (nI : Option Int)
    (ms : Option Nat) (eid : Int) (m : ℚ)
    (h : RLTask.collect_trajectories E st p nT nI false ms eid =
      Except.ok (m, st')) :
    ∀ kv ∈ st'.trajectories, eid - (st.n_replay_epochs : Int) ≤ kv.1 := by
  obtain ⟨trajs, st1, hst, _, _, hr⟩ := collect_false_ok E st p nT nI ms eid m st' h
  intro kv hkv
  rw [hst] at hkv
  have := storeTrajectories_prune st1 eid trajs kv hkv
  rwa [hr] at this

/-- C4 witness: a concrete successful collection to which the pruning bound
theorem applies. -/
theorem collect_prune_lower_bound_witness :
    ∃ m st', RLTask.collect_trajectories E1 stD p0 (some 1) none false
        (some 1) 1 = Except.ok (m, st') ∧
      ∀ kv ∈ st'.trajectories, (1 : Int) - (stD.n_replay_epochs : Int) ≤ kv.1 := by
  obtain ⟨m, st', h⟩ : ∃ m st', RLTask.collect_trajectories E1 stD p0 (some 1)
      none false (some 1) 1 = Except.ok (m, st') := ⟨_, _, rfl⟩
  exact ⟨m, st', h, collect_prune_lower_bound E1 stD st' p0 (some 1) none
    (some 1) 1 m h⟩

/-- C4 counterexample: with `n_replay_epochs = 1` and a buffer holding
epochs 0 and 1, collecting into `epoch_id = 1` keeps BOTH epochs (the prune
condition is `key >= epoch_id - n_replay_epochs = 0`), so the buffer holds
2 epochs, more than `n_replay_epochs`. -/
theorem collect_prune_count_cex :
    ∃ m st', RLTask.collect_trajectories E1 stD p0 (some 1) none false
        (some 1) 1 = Except.ok (m, st') ∧
      st'.trajectories.map Prod.fst = [0, 1] ∧
      ¬(st'.trajectories.length ≤ stD.n_replay_epochs) := by
  refine ⟨_, _, rfl, ?_, ?_⟩ <;> decide

/-- C5 (amended): a successful non-eval `collect_trajectories` removes
`epoch_id` from the unchanged-since-save set and never enlarges that set;
but `remove_epoch` leaves the set untouched (and collect's pruning step does
not shrink it either), so the subset invariant of the claim is NOT
preserved by every operation — see the counterexample. -/
theorem saved_epochs_update {σ : Type} (E : GymEnv σ) (st st' : RLTask σ)
    (p : Policy) (nT : Option Nat) (nI : Option Int) (ms : Option Nat)
    (eid : Int) (m : ℚ)
    (h : RLTask.collect_trajectories E st p nT nI false ms eid =
      Except.ok (m, st')) :
    st'.saved_epochs_unchanged =
      st.saved_epochs_unchanged.filter (fun e => e != eid) ∧
    eid ∉ st'.saved_epochs_unchanged ∧
    ∀ (σ2 : Type) (st2 : RLTask σ2) (e : Int),
      (RLTask.remove_epoch st2 e).saved_epochs_unchanged =
        st2.saved_epochs_unchanged := by
  obtain ⟨trajs, st1, hst, _, hs, _⟩ := collect_false_ok E st p nT nI ms eid m st' h
  have h1 : st'.saved_epochs_unchanged =
      st.saved_epochs_unchanged.filter (fun e => e != eid) := by
    rw [hst, storeTrajectories_saved, hs]
  refine ⟨h1, ?_, fun σ2 st2 e => remove_epoch_saved st2 e⟩
  rw [h1]
  intro hmem
  have := (List.mem_filter.mp hmem).2
  simp at this

/-- C5 witness: a concrete collection applying the saved-set theorem:
epoch 2 is dropped from the set `[1, 2]`, leaving `[1]`. -/
theorem saved_epochs_update_witness :
    ∃ m st', RLTask.collect_trajectories E1 stS p0 (some 0) none false
        (some 3) 2 = Except.ok (m, st') ∧
      st'.saved_epochs_unchanged = [1] := by
  obtain ⟨m, st', h⟩ : ∃ m st', RLTask.collect_trajectories E1 stS p0 (some 0)
      none false (some 3) 2 = Except.ok (m, st') := ⟨_, _, rfl⟩
  refine ⟨m, st', h, ?_⟩
  rw [(saved_epochs_update E1 stS st' p0 (some 0) none (some 3) 2 m h).1]
  rfl

/-- C5 counterexample: `remove_epoch` breaks the subset invariant.  In
`stE` the saved-unchanged set `[0]` is a subset of the buffer's epochs;
after `remove_epoch 0` the buffer no longer holds epoch 0 but the set still
does. -/
theorem saved_epochs_subset_cex :
    (∀ e ∈ stE.saved_epochs_unchanged, e ∈ stE.trajectories.map Prod.fst) ∧
    ¬(∀ e ∈ (RLTask.remove_epoch stE 0).saved_epochs_unchanged,
        e ∈ (RLTask.remove_epoch stE 0).trajectories.map Prod.fst) := by
  constructor
  · decide
  · intro hall
    have := hall 0 (by rw [remove_epoch_saved]; decide)
    revert this
    decide

/-- C6 (amended): on a trajectory with fewer than 2 timesteps the `done`
GETTER does not fail — it returns `False` — while the SETTER does raise; on
a trajectory with at least 2 timesteps the getter reads and the setter
writes the second-to-last timestep's `done` flag, leaving every other
timestep unchanged. -/
theorem done_accessors (t : Trajectory) (d : Bool) :
    (t.length < 2 →
      Trajectory.done t = some false ∧
      Trajectory.doneSet t d =
        Except.error "No interactions yet in the trajectory.") ∧
    (∀ h : 2 ≤ t.length,
      Trajectory.done t = (t.reverse.get ⟨1, by simp; omega⟩).done ∧
      Trajectory.doneSet t d =
        Except.ok (Trajectory.setDoneAt t (t.length - 2) d) ∧
      (Trajectory.setDoneAt t (t.length - 2) d).get? (t.length - 2) =
        (t.get? (t.length - 2)).map (fun x => { x with done := some d }) ∧
      ∀ i, i ≠ t.length - 2 →
        (Trajectory.setDoneAt t (t.length - 2) d).get? i = t.get? i) := by
  constructor
  · intro h
    exact ⟨by rw [Trajectory.done, dif_pos h],
      by rw [Trajectory.doneSet, if_pos h]⟩
  · intro h
    refine ⟨?_, by rw [Trajectory.doneSet, if_neg (by omega)],
      setDoneAt_get?_same d t (t.length - 2) (by omega),
      fun i hi => setDoneAt_get?_other d t (t.length - 2) i hi⟩
    rw [Trajectory.done, dif_neg (by omega),
      List.get_reverse' t ⟨1, by simp; omega⟩ (by simp; omega)]
    have he : (⟨t.length - 2, by omega⟩ : Fin t.length) =
        ⟨t.length - 1 - 1, by omega⟩ := by
      apply Fin.ext
      show t.length - 2 = t.length - 1 - 1
      omega
    rw [he]

/-- C6 witness: the accessor theorem applied to a one-step and a two-step
trajectory. -/
theorem done_accessors_witness :
    Trajectory.done [newTimeStep 0] = some false ∧
    Trajectory.doneSet [newTimeStep 0] true =
      Except.error "No interactions yet in the trajectory." ∧
    Trajectory.doneSet t2 true =
      Except.ok (Trajectory.setDoneAt t2 0 true) :=
  ⟨((done_accessors [newTimeStep 0] true).1 (by decide)).1,
   ((done_accessors [newTimeStep 0] true).1 (by decide)).2,
   ((done_accessors t2 true).2 (by decide)).2.1⟩

/-- C6 counterexample: reading `done` on a single-timestep trajectory does
NOT fail — the getter returns the value `False` — contradicting the claim
that the read raises for trajectories with fewer than 2 timesteps. -/
theorem done_getter_total_cex :
    Trajectory.done [newTimeStep 0] = some false := rfl

/-- C1 (amended): an `RLTask.play` call with `only_eval=True` leaves the
training environment state, the remaining-steps counter, the buffer and the
counters untouched (and always plays from a fresh reset, capped at
`min(max_steps, time_limit)`), but it DOES overwrite the cross-call
`last_observation` used to resume training episodes: with `None` when the
eval trajectory ends done, and with the eval trajectory's last observation
otherwise. -/
theorem eval_play_updates_last_observation {σ : Type} (E : GymEnv σ)
    (st st' : RLTask σ) (p : Policy) (ms : Option Nat) (tr : Trajectory)
    (h : RLTask.play E st p ms true = Except.ok (st', tr)) :
    st'.env = st.env ∧ st'.n_steps_left = st.n_steps_left ∧
    st'.trajectories = st.trajectories ∧
    st'.saved_epochs_unchanged = st.saved_epochs_unchanged ∧
    st'.n_trajectories = st.n_trajectories ∧
    st'.n_interactions = st.n_interactions ∧
    st'.last_observation =
      (if Trajectory.isDone tr then none else Trajectory.last_observation tr) := by
  rw [play_eval_ok] at h
  injection h with h2
  have hst := congrArg Prod.fst h2
  have htr := congrArg Prod.snd h2
  simp only at hst htr
  subst hst
  refine ⟨?_, ?_, ?_, ?_, ?_, ?_, ?_⟩
  · exact (playPost_frame _ true _).2.2.2.2.2.2.2.2.1
  · exact playPost_eval_n_steps_left _ _
  · exact (playPost_frame _ true _).2.2.2.1
  · exact (playPost_frame _ true _).2.2.2.2.1
  · exact (playPost_frame _ true _).2.2.2.2.2.2.1
  · exact (playPost_frame _ true _).2.2.2.2.2.2.2.1
  · rw [← htr, playPost_snd, calculate_returns_isDone,
      calculate_returns_last_observation]
    exact playPost_last_observation _ true _

/-- C1 witness: a concrete eval play to which the frame theorem applies. -/
theorem eval_play_updates_last_observation_witness :
    ∃ st' tr, RLTask.play E1 stC p0 (some 3) true = Except.ok (st', tr) ∧
      st'.env = stC.env ∧ st'.n_steps_left = stC.n_steps_left ∧
      st'.trajectories = stC.trajectories := by
  obtain ⟨st', tr, h⟩ : ∃ st' tr,
      RLTask.play E1 stC p0 (some 3) true = Except.ok (st', tr) := ⟨_, _, rfl⟩
  have hf := eval_play_updates_last_observation E1 stC st' p0 (some 3) tr h
  exact ⟨st', tr, h, hf.1, hf.2.1, hf.2.2.1⟩

/-- C1 counterexample: in `stC` a training episode is in progress
(`last_observation = some 9`); an `only_eval=True` play whose eval episode
finishes CLEARS the cross-call `last_observation`, so the state differs
before and after, refuting the claim that eval play never mutates it. -/
theorem eval_play_mutates_last_observation_cex :
    ∃ st' tr, RLTask.play E1 stC p0 (some 3) true = Except.ok (st', tr) ∧
      st'.last_observation = none ∧ stC.last_observation = some 9 ∧
      ¬ st'.last_observation = stC.last_observation := by
  refine ⟨_, _, rfl, ?_, ?_, ?_⟩ <;> decide

/-- C10: in interaction-count mode, an `only_eval=True`
`collect_trajectories` leaves the buffer, the saved-epochs set and both
counters unchanged and returns only the mean return; yet its state is
EXACTLY the state of the inner interaction loop, whose `play` calls are
made WITHOUT `only_eval` (see `RLTask.collectInteractLoop`): they run on
the training environment, consuming `n_steps_left` and updating the
cross-call `last_observation`. -/
theorem collect_only_eval_interactions {σ : Type} (E : GymEnv σ)
    (st st' : RLTask σ) (p : Policy) (k : Int) (ms : Option Nat) (eid : Int)
    (m : ℚ)
    (h : RLTask.collect_trajectories E st p none (some k) true ms eid =
      Except.ok (m, st')) :
    st'.trajectories = st.trajectories ∧
    st'.saved_epochs_unchanged = st.saved_epochs_unchanged ∧
    st'.n_trajectories = st.n_trajectories ∧
    st'.n_interactions = st.n_interactions ∧
    ∃ trajs, RLTask.collectInteractLoop E p (RLTask.resolveMaxSteps ms st)
        k.toNat k st = Except.ok (trajs, st') ∧
      m = RLTask.meanReturn trajs := by
  simp only [RLTask.collect_trajectories] at h
  cases hl : RLTask.collectInteractLoop E p (RLTask.resolveMaxSteps ms st)
      k.toNat k st with
  | error e => rw [hl] at h; exact absurd h (by simp)
  | ok pr =>
    obtain ⟨trajs, st1⟩ := pr
    rw [hl] at h
    simp only [if_true] at h
    injection h with h2
    have hm := congrArg Prod.fst h2
    have hst := congrArg Prod.snd h2
    simp only at hm hst
    subst hst
    have hf := collectInteractLoop_frame E p (RLTask.resolveMaxSteps ms st)
      k.toNat k st trajs st1 hl
    exact ⟨hf.2.2.2.1, hf.2.2.2.2.1, hf.2.2.2.2.2.2.1, hf.2.2.2.2.2.2.2,
      trajs, rfl, hm.symm⟩

/-- C10 witness: a concrete only-eval interaction-mode collection; the
buffer and the interaction counter are untouched. -/
theorem collect_only_eval_interactions_witness :
    ∃ m st', RLTask.collect_trajectories E1 stW p0 none (some 1) true none 1 =
        Except.ok (m, st') ∧
      st'.trajectories = stW.trajectories ∧
      st'.n_interactions = stW.n_interactions := by
  obtain ⟨m, st', h⟩ : ∃ m st',
      RLTask.collect_trajectories E1 stW p0 none (some 1) true none 1 =
        Except.ok (m, st') := ⟨_, _, rfl⟩
  have hf := collect_only_eval_interactions E1 stW st' p0 1 none 1 m h
  exact ⟨m, st', h, hf.1, hf.2.2.2.1⟩

/-! The fixed-length-5 episode scenario of C2. -/

lemma playLoop_E5_spec (p : Policy) :
    ∀ (fuel s : Nat) (tr : Trajectory), tr ≠ [] → fuel + s = 5 → 0 < fuel →
      (playLoop E5 p fuel s tr).1 = 5 ∧
      (playLoop E5 p fuel s tr).2.length = tr.length + fuel ∧
      Trajectory.isDone (playLoop E5 p fuel s tr).2 = true
  | 0, s, tr, _, hfs, hf => absurd hf (by omega)
  | fuel + 1, s, tr, hne, hfs, _ => by
    have hunfold : playLoop E5 p (fuel + 1) s tr =
        if ((s + 1 == 5) = true) then
          (s + 1, Trajectory.extend tr (p tr).1 (p tr).2 ((s : Int) + 1) 1
            (s + 1 == 5) 1)
        else playLoop E5 p fuel (s + 1)
          (Trajectory.extend tr (p tr).1 (p tr).2 ((s : Int) + 1) 1
            (s + 1 == 5) 1) := rfl
    by_cases h5 : s + 1 = 5
    · have hfuel : fuel = 0 := by omega
      subst hfuel
      have hb : (s + 1 == 5) = true := by simpa using h5
      rw [hunfold, hb, if_pos rfl]
      refine ⟨h5, ?_, ?_⟩
      · show (Trajectory.extend tr (p tr).1 (p tr).2 ((s : Int) + 1) 1 true 1).length =
          tr.length + (0 + 1)
        rw [extend_length]
      · show Trajectory.isDone
          (Trajectory.extend tr (p tr).1 (p tr).2 ((s : Int) + 1) 1 true 1) = true
        exact extend_isDone tr hne _ _ _ _ _ _
    · have hb : (s + 1 == 5) = false := by simpa using h5
      rw [hunfold, hb, if_neg (by simp)]
      have hrec := playLoop_E5_spec p fuel (s + 1)
        (Trajectory.extend tr (p tr).1 (p tr).2 ((s : Int) + 1) 1 false 1)
        (extend_ne_nil tr _ _ _ _ _ _) (by omega) (by omega)
      exact ⟨hrec.1, by rw [hrec.2.1, extend_length]; omega, hrec.2.2⟩

lemma play_E5_run (p : Policy) (st : RLTask Nat)
    (h1 : st.last_observation = none) (h2 : st.n_steps_left = 100)
    (h3 : st.time_limit = 100) :
    ∃ st' tr, RLTask.play E5 st p (some 5) false = Except.ok (st', tr) ∧
      st'.last_observation = none ∧ st'.n_steps_left = 100 ∧
      st'.time_limit = st.time_limit ∧ tr.length = 6 := by
  have hEq : Trax.play E5 p 5 none st.env = playLoop E5 p 5 0 [newTimeStep 0] := rfl
  obtain ⟨he, hl, hd⟩ := playLoop_E5_spec p 5 0 [newTimeStep 0] (by simp) (by omega)
    (by omega)
  have hl6 : (playLoop E5 p 5 0 [newTimeStep 0]).2.length = 6 := by
    rw [hl]; rfl
  refine ⟨{ st with env := 5, last_observation := none, n_steps_left := 100 },
    Trajectory.calculate_returns st.gamma (playLoop E5 p 5 0 [newTimeStep 0]).2,
    ?_, rfl, rfl, rfl, by rw [calculate_returns_length, hl6]⟩
  simp only [RLTask.play, Bool.false_eq_true, if_false, h1, h2, Option.getD_some]
  norm_num
  rw [show Int.toNat (5 : Int) = (5 : Nat) from rfl]
  rw [hEq, hl6]
  rw [if_neg (by norm_num), if_neg (by norm_num)]
  rw [RLTask.playPost, hd]
  rw [he]
  simp [h3]

lemma interactLoop_E5 (p : Policy) :
    ∃ tr1 tr2 stF, RLTask.collectInteractLoop E5 p 5 10 10 st0 =
        Except.ok ([tr1, tr2], stF) ∧ tr1.length = 6 ∧ tr2.length = 6 := by
  obtain ⟨st1, tr1, hp1, hlo1, hns1, htl1, hlen1⟩ := play_E5_run p st0 rfl rfl rfl
  obtain ⟨st2, tr2, hp2, _, _, _, hlen2⟩ := play_E5_run p st1 hlo1 hns1
    (by rw [htl1]; rfl)
  refine ⟨tr1, tr2, st2, ?_, hlen1, hlen2⟩
  rw [show (10 : Nat) = 9 + 1 from rfl]
  rw [RLTask.collectInteractLoop, if_neg (by norm_num)]
  rw [show (min ((10 : Int)).toNat 5) = 5 from rfl]
  rw [hp1]
  simp only
  rw [hlen1]
  norm_num
  rw [show (9 : Nat) = 8 + 1 from rfl]
  rw [RLTask.collectInteractLoop, if_neg (by norm_num)]
  rw [show (min ((5 : Int)).toNat 5) = 5 from rfl]
  rw [hp2]
  simp only
  rw [hlen2]
  norm_num
  rw [show (8 : Nat) = 7 + 1 from rfl]
  rw [RLTask.collectInteractLoop, if_pos (by norm_num)]

lemma storeTrajectories_two {σ : Type} (st : RLTask σ) (eid : Int)
    (t1 t2 : Trajectory) :
    (RLTask.storeTrajectories st eid [t1, t2]).n_trajectories =
      st.n_trajectories + 2 ∧
    (RLTask.storeTrajectories st eid [t1, t2]).n_interactions =
      st.n_interactions + (t1.length + (t2.length + 0)) ∧
    (RLTask.storeTrajectories st eid [t1, t2]).trajectories =
      (RLTask.extendEpoch st.trajectories eid [t1, t2]).filter
        (fun kv => decide (eid - (st.n_replay_epochs : Int) ≤ kv.1)) := by
  simp only [RLTask.storeTrajectories, List.isEmpty_cons, Bool.false_eq_true,
    if_false, List.map_cons, List.map_nil, List.sum_cons, List.sum_nil,
    List.length_cons, List.length_nil]
  split <;> exact ⟨rfl, rfl, rfl⟩

lemma collect_E5_core (p : Policy) :
    ∃ m st', RLTask.collect_trajectories E5 st0 p none (some 10) false
        (some 5) 1 = Except.ok (m, st') ∧
      st'.n_trajectories = 2 ∧
      st'.n_interactions = 12 ∧
      st'.trajectories.map (fun kv => (kv.1, kv.2.length)) = [(1, 2)] := by
  obtain ⟨tr1, tr2, stF, hl, hl1, hl2⟩ := interactLoop_E5 p
  have hframe := collectInteractLoop_frame E5 p 5 10 10 st0 [tr1, tr2] stF hl
  have htrajF : stF.trajectories = [] := hframe.2.2.2.1
  have hnrF : stF.n_replay_epochs = 1 := hframe.2.2.2.2.2.1
  have hntF : stF.n_trajectories = 0 := hframe.2.2.2.2.2.2.1
  have hniF : stF.n_interactions = 0 := hframe.2.2.2.2.2.2.2
  obtain ⟨hsn, hsi, hstr⟩ := storeTrajectories_two stF 1 tr1 tr2
  simp only [RLTask.collect_trajectories]
  rw [show RLTask.resolveMaxSteps (some 5) st0 = 5 from rfl]
  rw [show ((10 : Int)).toNat = 10 from rfl]
  rw [hl]
  simp only
  refine ⟨_, _, rfl, ?_, ?_, ?_⟩
  · rw [hsn, hntF]
  · rw [hsi, hniF, hl1, hl2]
  · rw [hstr, htrajF, hnrF]
    rfl

/-- C2 (amended): against the deterministic environment whose episodes end
after exactly 5 steps, `collect_trajectories(n_interactions=10,
max_steps=5)` in training mode produces exactly 2 new trajectories — but
the `n_interactions()` counter increases by 12, NOT 10: line 627 of the
source adds the FULL length of every trajectory (5 interactions plus the
initial reset observation, 6 per trajectory), although the loop's own
budget arithmetic (line 593) counts `len - 1`. -/
theorem collect_interactions_scenario (p : Policy) :
    ∃ m st', RLTask.collect_trajectories E5 st0 p none (some 10) false
        (some 5) 1 = Except.ok (m, st') ∧
      st'.n_trajectories = st0.n_trajectories + 2 ∧
      st'.n_interactions = st0.n_interactions + 12 ∧
      st'.trajectories.map (fun kv => (kv.1, kv.2.length)) = [(1, 2)] := by
  obtain ⟨m, st', h, h1, h2, h3⟩ := collect_E5_core p
  exact ⟨m, st', h, h1, h2, h3⟩

/-- C2 counterexample: the same scenario run with a concrete policy — the
collection produces 2 trajectories, but `n_interactions()` grows by 12,
refuting the claimed increase of exactly 10. -/
theorem collect_interactions_counter_cex :
    ∃ m st', RLTask.collect_trajectories E5 st0 p0 none (some 10) false
        (some 5) 1 = Except.ok (m, st') ∧
      st'.n_trajectories = 2 ∧ st'.n_interactions = 12 ∧
      ¬(st'.n_interactions = st0.n_interactions + 10) := by
  obtain ⟨m, st', h, h1, h2, h3⟩ := collect_E5_core p0
  refine ⟨m, st', h, h1, h2, ?_⟩
  rw [h2]
  decide

/-! Helper lemmas for `to_np` (claim C7). -/

lemma collectFields_observations_length :
    ∀ t : Trajectory, (Trajectory.collectFields t).observations.length = t.length
  | [] => rfl
  | ts :: rest => by
    cases ha : ts.action <;>
      simp [Trajectory.collectFields, ha, collectFields_observations_length rest]

lemma collectFields_lens :
    ∀ t : Trajectory,
      (Trajectory.collectFields t).dist_inputs.length =
        (Trajectory.collectFields t).actions.length ∧
      (Trajectory.collectFields t).rewards.length =
        (Trajectory.collectFields t).actions.length ∧
      (Trajectory.collectFields t).returns.length =
        (Trajectory.collectFields t).actions.length
  | [] => ⟨rfl, rfl, rfl⟩
  | ts :: rest => by
    obtain ⟨i1, i2, i3⟩ := collectFields_lens rest
    cases ha : ts.action <;> simp [Trajectory.collectFields, ha, i1, i2, i3]

lemma collectFields_actions_ne :
    ∀ t : Trajectory, t.any (fun ts => ts.action.isSome) = true →
      (Trajectory.collectFields t).actions ≠ []
  | [], h => by simp at h
  | ts :: rest, h => by
    cases ha : ts.action with
    | some a => simp [Trajectory.collectFields, ha]
    | none =>
      have h' : rest.any (fun ts => ts.action.isSome) = true := by
        simpa [List.any_cons, ha] using h
      have := collectFields_actions_ne rest h'
      simpa [Trajectory.collectFields, ha] using this

lemma fillerOf_ok {α : Type} [OfNat α 0] (x : List (Option α)) (hx : x ≠ []) :
    ∃ v, Trajectory.fillerOf x = Except.ok v := by
  rw [Trajectory.fillerOf]
  cases hgl : x.getLast? with
  | none => exact absurd (List.getLast?_eq_none_iff.mp hgl) hx
  | some l => cases l <;> exact ⟨_, rfl⟩

lemma stack_of_ne_nil {α : Type} (l : List α) (h : l ≠ []) :
    Trajectory.stack l = some l := by
  rw [Trajectory.stack, if_neg]
  simp [List.isEmpty_iff, h]

/-- C7 (amended): for trajectories with AT LEAST 2 timesteps (and at least
one closed step, as every trajectory built through `extend` has), `to_np`
with margin `m > 0` yields an observation array of time-length
`len + m - 1`, a mask array ending in `m` zeros, and a done array ending in
`m` `True`s.  A single-timestep trajectory does not satisfy this — see the
counterexample. -/
theorem to_np_margin (t : Trajectory) (m : Nat) (h2 : 2 ≤ t.length)
    (hm : 1 ≤ m) (hclosed : t.any (fun ts => ts.action.isSome) = true) :
    ∃ tnp : TrajectoryNp,
      Trajectory.to_np t m = Except.ok tnp ∧
      (∃ obs, tnp.observations = some obs ∧ obs.length = t.length + m - 1) ∧
      (∃ mk, tnp.mask = some (mk ++ List.replicate m (some (0 : ℚ)))) ∧
      (∃ dn, tnp.dones = some (dn ++ List.replicate m (some true))) := by
  have hane := collectFields_actions_ne t hclosed
  have halen : 0 < (Trajectory.collectFields t).actions.length :=
    List.length_pos.mpr hane
  obtain ⟨l1, l2, l3⟩ := collectFields_lens t
  obtain ⟨fa, hfa⟩ := fillerOf_ok (Trajectory.collectFields t).actions hane
  obtain ⟨fd, hfd⟩ := fillerOf_ok (Trajectory.collectFields t).dist_inputs
    (by intro hnil; rw [hnil] at l1; simp only [List.length_nil] at l1; omega)
  obtain ⟨fr, hfr⟩ := fillerOf_ok (Trajectory.collectFields t).rewards
    (by intro hnil; rw [hnil] at l2; simp only [List.length_nil] at l2; omega)
  obtain ⟨fret, hfret⟩ := fillerOf_ok (Trajectory.collectFields t).returns
    (by intro hnil; rw [hnil] at l3; simp only [List.length_nil] at l3; omega)
  simp only [Trajectory.to_np]
  rw [if_pos (by rw [collectFields_observations_length]; omega)]
  rw [hfa, hfd, hfr, hfret]
  refine ⟨_, rfl, ⟨(Trajectory.collectFields t).observations ++
      List.replicate (m - 1) 0, ?_, ?_⟩,
    ⟨(Trajectory.collectFields t).masks, ?_⟩,
    ⟨(Trajectory.collectFields t).dones, ?_⟩⟩
  · exact stack_of_ne_nil _ (by
      intro hnil
      have := congrArg List.length hnil
      rw [List.length_append, List.length_replicate,
        collectFields_observations_length] at this
      simp only [List.length_nil] at this
      omega)
  · rw [List.length_append, List.length_replicate,
      collectFields_observations_length]
    omega
  · exact stack_of_ne_nil _ (by
      intro hnil
      have := congrArg List.length hnil
      rw [List.length_append, List.length_replicate] at this
      simp only [List.length_nil] at this
      omega)
  · exact stack_of_ne_nil _ (by
      intro hnil
      have := congrArg List.length hnil
      rw [List.length_append, List.length_replicate] at this
      simp only [List.length_nil] at this
      omega)

/-- C7 witness: a two-step trajectory (one closed, one open step) with
margin 2. -/
theorem to_np_margin_witness :
    2 ≤ t2.length ∧
    ∃ tnp : TrajectoryNp,
      Trajectory.to_np t2 2 = Except.ok tnp ∧
      (∃ obs, tnp.observations = some obs ∧ obs.length = t2.length + 2 - 1) ∧
      (∃ mk, tnp.mask = some (mk ++ List.replicate 2 (some (0 : ℚ)))) ∧
      (∃ dn, tnp.dones = some (dn ++ List.replicate 2 (some true))) :=
  ⟨by decide, to_np_margin t2 2 (by decide) (by decide) (by decide)⟩

/-- C7 counterexample: a single-timestep trajectory with margin 1.  The
mask and done arrays come out as `None` (no closed step exists and the
margin extension is skipped for length-1 field lists), so they do NOT end
in margin zeros / `True`s, refuting the unrestricted "for every trajectory"
claim. -/
theorem to_np_margin_single_step_cex :
    ∃ tnp : TrajectoryNp,
      Trajectory.to_np [newTimeStep 0] 1 = Except.ok tnp ∧
      tnp.mask = none ∧ tnp.dones = none ∧
      ∃ obs, tnp.observations = some obs ∧ obs.length = 1 :=
  ⟨⟨some [0], none, none, none, none, none, none⟩, rfl, rfl, rfl, [0], rfl, rfl⟩

/-! Helper lemmas for `calculate_returns` indexing (claim C8). -/

lemma calculate_returns_get (γ : ℚ) (t : Trajectory) (i : Nat)
    (h : i < t.length) :
    (Trajectory.calculate_returns γ t).get
        ⟨i, by rw [calculate_returns_length]; exact h⟩ =
      { t.get ⟨i, h⟩ with
          discounted_return := Trajectory.retFrom γ (t.drop i) } := by
  have h1 := calculate_returns_get? γ t i
  rw [List.get?_eq_get (by rw [calculate_returns_length]; exact h),
    List.get?_eq_get h] at h1
  simp only [Option.map_some'] at h1
  exact Option.some.inj h1

lemma retFrom_drop (γ : ℚ) (t : Trajectory) (i : Nat) (h : i < t.length) :
    Trajectory.retFrom γ (t.drop i) =
      γ * Trajectory.retFrom γ (t.drop (i + 1)) +
        ((t.get ⟨i, h⟩).reward.getD 0) := by
  rw [show t.drop i = t.get ⟨i, h⟩ :: t.drop (i + 1) from by
    rw [List.drop_eq_getElem_cons h]; rfl]
  exact retFrom_cons γ (t.get ⟨i, h⟩) (t.drop (i + 1))

/-- C8: on a trajectory of at least 2 timesteps ending in an open step (its
final timestep has no reward yet, which is what makes index `-2` the last
closed step), `calculate_returns(gamma)` stores that step's own reward as
its discounted return, and every earlier step satisfies
`return_i = reward_i + gamma * return_(i+1)`, missing rewards counting
as 0. -/
theorem calculate_returns_recurrence (γ : ℚ) (t : Trajectory)
    (h2 : 2 ≤ t.length)
    (hopen : (t.get ⟨t.length - 1, by omega⟩).reward = none) :
    ((Trajectory.calculate_returns γ t).get ⟨t.length - 2, by
        rw [calculate_returns_length]; omega⟩).discounted_return =
      ((t.get ⟨t.length - 2, by omega⟩).reward).getD 0 ∧
    ∀ (i : Nat) (hi : i + 2 < t.length),
      ((Trajectory.calculate_returns γ t).get ⟨i, by
          rw [calculate_returns_length]; omega⟩).discounted_return =
        ((t.get ⟨i, by omega⟩).reward).getD 0 +
          γ * ((Trajectory.calculate_returns γ t).get ⟨i + 1, by
            rw [calculate_returns_length]; omega⟩).discounted_return := by
  constructor
  · rw [calculate_returns_get γ t (t.length - 2) (by omega)]
    simp only
    rw [retFrom_drop γ t (t.length - 2) (by omega)]
    rw [show t.length - 2 + 1 = t.length - 1 from by omega]
    rw [retFrom_drop γ t (t.length - 1) (by omega)]
    rw [show t.length - 1 + 1 = t.length from by omega]
    rw [List.drop_length, hopen]
    simp [Trajectory.retFrom, Trajectory.calcRetAux]
  · intro i hi
    rw [calculate_returns_get γ t i (by omega),
      calculate_returns_get γ t (i + 1) (by omega)]
    simp only
    rw [retFrom_drop γ t i (by omega)]
    ring

/-- C8 witness: the recurrence theorem applied to a concrete three-step
trajectory (two closed steps with rewards 2 and 3, one open step) with
`gamma = 1/2`. -/
theorem calculate_returns_recurrence_witness :
    2 ≤ tRet.length ∧
    ((Trajectory.calculate_returns (1 / 2) tRet).get
        ⟨1, by decide⟩).discounted_return =
      ((tRet.get ⟨1, by decide⟩).reward).getD 0 :=
  ⟨by decide, ((calculate_returns_recurrence (1 / 2) tRet (by decide)
    (by decide)).1)⟩

/-- C9: the two concrete batch-padding scenarios of the claim.  Slices of
time-length 3, 5 and 9 with no minimum slice length are padded with
trailing zeros to time-length 16 (the least power of two at least 9);
slices that all share time-length 4 are stacked unchanged. -/
theorem batch_padding_concrete :
    (∃ out, pad none [some (List.replicate 3 (1 : ℚ)),
        some (List.replicate 5 1), some (List.replicate 9 1)] =
          Except.ok out ∧
      out.map List.length = [16, 16, 16] ∧
      out = [List.replicate 3 1 ++ List.replicate 13 0,
             List.replicate 5 1 ++ List.replicate 11 0,
             List.replicate 9 1 ++ List.replicate 7 0]) ∧
    pad none [some [(1 : ℚ), 2, 3, 4], some [5, 6, 7, 8],
        some [9, 10, 11, 12]] =
      Except.ok [[1, 2, 3, 4], [5, 6, 7, 8], [9, 10, 11, 12]] := by
  refine ⟨⟨_, rfl, by decide, by decide⟩, ?_⟩
  rfl

end Trax
